import Mathlib

/-!
Shallow embedding of the fieldlifechemical-backend product routes.

The repository has two parallel route implementations over the same
mongoose `Product` model:

* `src/routes/productRoutes.js` — local-disk asset backend (multer
  `diskStorage` writing under `/uploads`, old-image deletion on update,
  compensating unlink on failed create, asset-then-record delete);
* `src/unnamed/part_002` — remote ImageKit backend (multer
  `memoryStorage`, upload to ImageKit; no deletion or compensation of
  remote assets anywhere).

Machine state is modelled explicitly: the local uploads directory and the
remote object store are each a `List String` of asset references (a set of
files / URLs; `fsRemove` deletes every occurrence, matching filesystem
semantics), and the mongo collection is a `List Product`.  Fallibility of
the database write, of the remote upload call, and of best-effort unlink
calls is injected through explicit `Bool` oracles, mirroring the
`try/catch` structure of the source.  Generated file names / URLs and
timestamps are passed in as parameters (the source draws them from
`Date.now()` and `Math.random()`).
-/

namespace FieldLife

/-- JS truthiness of an optional string request field: `undefined` and the
empty string are falsy, every other string is truthy (`if (name) ...`). -/
def jsTruthy : Option String → Bool
  | none => false
  | some s => s != ""

/-- Model of the JS `String.prototype.trim()` call used on every text
field: drop surrounding whitespace (structural over the character list so
that terms evaluate). -/
def jsTrim (s : String) : String :=
  ⟨((s.data.dropWhile Char.isWhitespace).reverse.dropWhile Char.isWhitespace).reverse⟩

/-- Model of the JS `String.prototype.startsWith` call of the multer
`fileFilter` (structural over the character lists). -/
def jsStartsWith (s pre : String) : Bool :=
  decide (pre.data <+: s.data)

/-- Model of JS `toLowerCase` (structural over the character list). -/
def jsToLower (s : String) : String :=
  ⟨s.data.map Char.toLower⟩

/-- Typed error taxonomy of the spec (the HTTP status mapping performed by
the handlers is out of scope per spec §6). -/
inductive ApiError where
  | ValidationError
  | NotFound
  | AssetStoreError
  | PersistenceError
  | ForbiddenInEnvironment
  | UnsupportedMediaType
  | PayloadTooLarge
  deriving DecidableEq, Repr

/-- A product document (`src/models/Product.js`; `timestamps: true` adds
`createdAt`/`updatedAt`, modelled as abstract clock values). -/
structure Product where
  id : Nat
  name : String
  category : String
  description : Option String
  image : Option String
  createdAt : Nat
  updatedAt : Nat
  deriving DecidableEq, Repr

/-- The closed category enum of `productSchema` (`src/models/Product.js`). -/
def categories : List String :=
  ["Insecticides", "Fungicides", "Weedicides", "Plant Growth Regulators"]

/-- Mongoose document validation run by `save()`: `required: true` rejects
a missing or empty string for `name` and `category`, and the `enum`
validator requires `category` to be one of `categories`. -/
def schemaValid (p : Product) : Bool :=
  p.name != "" && p.category != "" && categories.contains p.category

/-- Lookup `Product.findById` (ids are opaque; modelled as `Nat`). -/
def findById (repo : List Product) (id : Nat) : Option Product :=
  repo.find? (fun p => p.id == id)

/-- Outcome alternatives of a mongoose `save()`: schema validation failure
(checked first, before any write) or a database write failure. -/
inductive SaveError where
  | validation
  | db
  deriving DecidableEq, Repr

/-- Model of `new Product(data); await product.save()` — insert of a fresh document.
Validation runs before the write; `dbOk` injects write failure. -/
def saveNew (dbOk : Bool) (repo : List Product) (p : Product) :
    Except SaveError (List Product) :=
  if !schemaValid p then .error .validation
  else if !dbOk then .error .db
  else .ok (p :: repo)

/-- Model of `await product.save()` on a document previously fetched by
`findById` — replaces the stored row with the mutated document. -/
def saveExisting (dbOk : Bool) (repo : List Product) (p : Product) :
    Except SaveError (List Product) :=
  if !schemaValid p then .error .validation
  else if !dbOk then .error .db
  else .ok (repo.map (fun q => if q.id == p.id then p else q))

/-- The text fields of a create/update request body. -/
structure Fields where
  name : Option String
  category : Option String
  description : Option String
  deriving Repr

/-- A binary payload as seen by multer: its size and declared mimetype
(the byte content itself is irrelevant to every claim). -/
structure FilePayload where
  sizeBytes : Nat
  mimetype : String
  deriving Repr

/-- Constant `limits: \x7b fileSize: 5 * 1024 * 1024 \x7d` — identical in both route
files. -/
def fileSizeLimit : Nat := 5 * 1024 * 1024

/-- The multer middleware stage shared by both backends: `fileFilter`
rejects a mimetype not starting with `image/` (checked first, on the part
headers), and the `fileSize` limit rejects a payload larger than 5 MiB.
On rejection nothing is stored (diskStorage removes any partial file;
memoryStorage never persists). -/
def multerCheck (f : FilePayload) : Except ApiError Unit :=
  if !jsStartsWith f.mimetype "image/" then .error .UnsupportedMediaType
  else if fileSizeLimit < f.sizeBytes then .error .PayloadTooLarge
  else .ok ()

/-- Model of `fs.unlinkSync` on a reference: the store is a set of live references,
so deletion removes every occurrence. -/
def fsRemove (fs : List String) (ref : String) : List String :=
  fs.filter (fun q => q != ref)

/-- Local backend generated reference: `/uploads/<generatedName>`. -/
def uploadPath (genName : String) : String := "/uploads/" ++ genName

/-- Model of `description ? description.trim() : undefined` (local create). -/
def descCreateLocal (d : Option String) : Option String :=
  if jsTruthy d then some (jsTrim (d.getD "")) else none

/-- Model of `description?.trim()` (remote create). -/
def descCreateRemote (d : Option String) : Option String :=
  d.map (fun s => jsTrim s)

/-- Route `POST /api/products` of the local-disk backend
(`src/routes/productRoutes.js`).  The multer middleware stores the file
under `/uploads` before the handler runs; the handler validates
`name`/`category` (unlinking the stored file on failure), builds the
document and saves it; the `catch` block best-effort unlinks the stored
file on save failure (`compOk` injects that unlink's own outcome). -/
def localCreate (fs : List String) (repo : List Product) (req : Fields)
    (file : Option FilePayload) (genName : String) (newId : Nat) (now : Nat)
    (dbOk : Bool) (compOk : Bool) :
    Except ApiError Product × List String × List Product :=
  match file with
  | some f =>
    match multerCheck f with
    | .error e => (.error e, fs, repo)
    | .ok _ =>
      let path := uploadPath genName
      let fs1 := path :: fs
      if !(jsTruthy req.name && jsTruthy req.category) then
        (.error .ValidationError, fsRemove fs1 path, repo)
      else
        let p : Product :=
          { id := newId
            name := jsTrim (req.name.getD "")
            category := jsTrim (req.category.getD "")
            description := descCreateLocal req.description
            image := some path
            createdAt := now
            updatedAt := now }
        match saveNew dbOk repo p with
        | .ok repo2 => (.ok p, fs1, repo2)
        | .error .validation =>
          (.error .ValidationError, if compOk then fsRemove fs1 path else fs1, repo)
        | .error .db =>
          (.error .PersistenceError, if compOk then fsRemove fs1 path else fs1, repo)
  | none =>
    if !(jsTruthy req.name && jsTruthy req.category) then
      (.error .ValidationError, fs, repo)
    else
      let p : Product :=
        { id := newId
          name := jsTrim (req.name.getD "")
          category := jsTrim (req.category.getD "")
          description := descCreateLocal req.description
          image := none
          createdAt := now
          updatedAt := now }
      match saveNew dbOk repo p with
      | .ok repo2 => (.ok p, fs, repo2)
      | .error .validation => (.error .ValidationError, fs, repo)
      | .error .db => (.error .PersistenceError, fs, repo)

/-- Route `POST /api/products` of the remote ImageKit backend
(`src/unnamed/part_002`).  multer keeps the file in memory; the handler
validates `name`/`category`, then uploads to ImageKit (`uploadOk` injects
that call's outcome, `url` the URL it returns), then saves.  The `catch`
block performs no compensation: a stored remote asset is never deleted. -/
def remoteCreate (store : List String) (repo : List Product) (req : Fields)
    (file : Option FilePayload) (url : String) (uploadOk : Bool)
    (newId : Nat) (now : Nat) (dbOk : Bool) :
    Except ApiError Product × List String × List Product :=
  match file with
  | some f =>
    match multerCheck f with
    | .error e => (.error e, store, repo)
    | .ok _ =>
      if !(jsTruthy req.name && jsTruthy req.category) then
        (.error .ValidationError, store, repo)
      else if !uploadOk then
        (.error .AssetStoreError, store, repo)
      else
        let store1 := url :: store
        let p : Product :=
          { id := newId
            name := jsTrim (req.name.getD "")
            category := jsTrim (req.category.getD "")
            description := descCreateRemote req.description
            image := some url
            createdAt := now
            updatedAt := now }
        match saveNew dbOk repo p with
        | .ok repo2 => (.ok p, store1, repo2)
        | .error .validation => (.error .ValidationError, store1, repo)
        | .error .db => (.error .PersistenceError, store1, repo)
  | none =>
    if !(jsTruthy req.name && jsTruthy req.category) then
      (.error .ValidationError, store, repo)
    else
      let p : Product :=
        { id := newId
          name := jsTrim (req.name.getD "")
          category := jsTrim (req.category.getD "")
          description := descCreateRemote req.description
          image := none
          createdAt := now
          updatedAt := now }
      match saveNew dbOk repo p with
      | .ok repo2 => (.ok p, store, repo2)
      | .error .validation => (.error .ValidationError, store, repo)
      | .error .db => (.error .PersistenceError, store, repo)

/-- The field-level partial-update applied by both PUT handlers (the lines
are textually identical in the two route files):
`if (name) product.name = name.trim();`
`if (category) product.category = category.trim();`
`if (description !== undefined) product.description = description.trim();` -/
def applyFields (p : Product) (req : Fields) : Product :=
  { p with
    name := if jsTruthy req.name then jsTrim (req.name.getD "") else p.name
    category := if jsTruthy req.category then jsTrim (req.category.getD "") else p.category
    description :=
      match req.description with
      | some d => some (jsTrim d)
      | none => p.description }

/-- Route `PUT /api/products/:id` of the local-disk backend.  multer stores any
new file first; a missing product unlinks it and returns 404; otherwise
fields are applied, then — if a new file was uploaded — the old image is
deleted when it exists on disk (`oldUnlinkOk` injects the `try`ed
unlink's outcome) and the field replaced; then the document is saved, the
`catch` block best-effort unlinking the new file on save failure. -/
def localUpdate (fs : List String) (repo : List Product) (id : Nat)
    (req : Fields) (file : Option FilePayload) (genName : String) (now : Nat)
    (oldUnlinkOk : Bool) (dbOk : Bool) (compOk : Bool) :
    Except ApiError Product × List String × List Product :=
  match file with
  | some f =>
    match multerCheck f with
    | .error e => (.error e, fs, repo)
    | .ok _ =>
      let path := uploadPath genName
      let fs1 := path :: fs
      match findById repo id with
      | none => (.error .NotFound, fsRemove fs1 path, repo)
      | some p0 =>
        let p1 := applyFields p0 req
        let fs2 :=
          match p1.image with
          | some old => if fs1.contains old && oldUnlinkOk then fsRemove fs1 old else fs1
          | none => fs1
        let p2 : Product := { p1 with image := some path, updatedAt := now }
        match saveExisting dbOk repo p2 with
        | .ok repo2 => (.ok p2, fs2, repo2)
        | .error .validation =>
          (.error .ValidationError, if compOk then fsRemove fs2 path else fs2, repo)
        | .error .db =>
          (.error .PersistenceError, if compOk then fsRemove fs2 path else fs2, repo)
  | none =>
    match findById repo id with
    | none => (.error .NotFound, fs, repo)
    | some p0 =>
      let p2 : Product := { applyFields p0 req with updatedAt := now }
      match saveExisting dbOk repo p2 with
      | .ok repo2 => (.ok p2, fs, repo2)
      | .error .validation => (.error .ValidationError, fs, repo)
      | .error .db => (.error .PersistenceError, fs, repo)

/-- Route `PUT /api/products/:id` of the remote backend.  When a new file is
present it is uploaded to ImageKit and `product.image` replaced with the
returned URL — the old remote asset is never deleted; no compensation is
performed on any failure. -/
def remoteUpdate (store : List String) (repo : List Product) (id : Nat)
    (req : Fields) (file : Option FilePayload) (url : String)
    (uploadOk : Bool) (now : Nat) (dbOk : Bool) :
    Except ApiError Product × List String × List Product :=
  match file with
  | some f =>
    match multerCheck f with
    | .error e => (.error e, store, repo)
    | .ok _ =>
      match findById repo id with
      | none => (.error .NotFound, store, repo)
      | some p0 =>
        let p1 := applyFields p0 req
        if !uploadOk then (.error .AssetStoreError, store, repo)
        else
          let store1 := url :: store
          let p2 : Product := { p1 with image := some url, updatedAt := now }
          match saveExisting dbOk repo p2 with
          | .ok repo2 => (.ok p2, store1, repo2)
          | .error .validation => (.error .ValidationError, store1, repo)
          | .error .db => (.error .PersistenceError, store1, repo)
  | none =>
    match findById repo id with
    | none => (.error .NotFound, store, repo)
    | some p0 =>
      let p2 : Product := { applyFields p0 req with updatedAt := now }
      match saveExisting dbOk repo p2 with
      | .ok repo2 => (.ok p2, store, repo2)
      | .error .validation => (.error .ValidationError, store, repo)
      | .error .db => (.error .PersistenceError, store, repo)

/-- Route `DELETE /api/products/:id` of the local-disk backend: fetch, then
delete the image file if it exists (`unlinkOk` injects the `try`ed
unlink's outcome; failure is only logged), then `findByIdAndDelete`. -/
def localDelete (fs : List String) (repo : List Product) (id : Nat)
    (unlinkOk : Bool) (dbOk : Bool) :
    Except ApiError Unit × List String × List Product :=
  match findById repo id with
  | none => (.error .NotFound, fs, repo)
  | some p =>
    let fs1 :=
      match p.image with
      | some ref => if fs.contains ref && unlinkOk then fsRemove fs ref else fs
      | none => fs
    if dbOk then (.ok (), fs1, repo.filter (fun q => q.id != id))
    else (.error .PersistenceError, fs1, repo)

/-- Route `DELETE /api/products/:id` of the remote backend: fetch, then
`findByIdAndDelete`.  The remote asset is never touched. -/
def remoteDelete (store : List String) (repo : List Product) (id : Nat)
    (dbOk : Bool) :
    Except ApiError Unit × List String × List Product :=
  match findById repo id with
  | none => (.error .NotFound, store, repo)
  | some _ =>
    if dbOk then (.ok (), store, repo.filter (fun q => q.id != id))
    else (.error .PersistenceError, store, repo)

/-- Route `DELETE /api/products` of the local-disk backend: refused with 403 when
`NODE_ENV === 'production'`; otherwise every product's image file that
exists on disk is unlinked (best-effort, counting successes), then
`deleteMany({})` clears the collection and the handler reports
`result.deletedCount` and the image count.  The loop body of the
`products.forEach` sweep is `sweepImage`, folded by `localSweep`. -/
def sweepImage (acc : List String × Nat) (p : Product) : List String × Nat :=
  match p.image with
  | some ref => if acc.1.contains ref then (fsRemove acc.1 ref, acc.2 + 1) else acc
  | none => acc

/-- The `products.forEach` loop of the local bulk delete: best-effort
unlink of every referenced image that exists on disk, counting deletions. -/
def localSweep (fs : List String) (repo : List Product) : List String × Nat :=
  repo.foldl sweepImage (fs, 0)

def localDeleteAll (fs : List String) (repo : List Product)
    (isProduction : Bool) (dbOk : Bool) :
    Except ApiError (Nat × Nat) × List String × List Product :=
  if isProduction then (.error .ForbiddenInEnvironment, fs, repo)
  else
    let swept := localSweep fs repo
    if dbOk then (.ok (repo.length, swept.2), swept.1, [])
    else (.error .PersistenceError, swept.1, repo)

/-- Route `DELETE /api/products` of the remote backend: the same production
guard, then `deleteMany({})`; assets are never touched. -/
def remoteDeleteAll (store : List String) (repo : List Product)
    (isProduction : Bool) (dbOk : Bool) :
    Except ApiError Nat × List String × List Product :=
  if isProduction then (.error .ForbiddenInEnvironment, store, repo)
  else if dbOk then (.ok repo.length, store, [])
  else (.error .PersistenceError, store, repo)

/-- Filter `if (category) query.category = category;` — exact match, only when the
query parameter is truthy. -/
def catMatch (c : Option String) (p : Product) : Bool :=
  match c with
  | none => true
  | some s => if s == "" then true else p.category == s

/-- Case-insensitive substring containment of `needle` in `hay`: the
spec's stated reading of the name search, and the behaviour of
case-insensitive regular-expression matching on a pattern made of literal
characters only. -/
def ciContains (needle hay : String) : Bool :=
  decide ((jsToLower needle).data <:+: (jsToLower hay).data)

/-- Filter `if (search) query.name = ... $regex: search, $options: i ...;`
— the raw search string is handed to MongoDB as a case-insensitive
regular-expression pattern over `name`.  The regex engine is MongoDB's
(external to this repository), so the test it applies is abstracted as a
parameter `rmatch : pattern → name → Bool`; facts proved below either
hold for every engine or assume only the law every regex dialect
satisfies on metacharacter-free patterns (`dotLiteralMatch` below is a
concrete engine model on the literal-and-dot fragment). -/
def searchMatch (rmatch : String → String → Bool) (s : Option String)
    (p : Product) : Bool :=
  match s with
  | none => true
  | some t => if t == "" then true else rmatch t p.name

/-- Conjunction of the two optional query conditions. -/
def matchesQuery (rmatch : String → String → Bool) (c s : Option String)
    (p : Product) : Bool :=
  catMatch c p && searchMatch rmatch s p

/-- Comparator of `.sort(... createdAt: -1 ...)`: non-increasing `createdAt`. -/
def byCreatedAtDesc (a b : Product) : Bool :=
  decide (b.createdAt ≤ a.createdAt)

/-- Route `GET /api/products`: `Product.find(query).sort(...)`, createdAt descending —
identical in both route files; parameterized by the engine's regex test. -/
def listProducts (rmatch : String → String → Bool) (repo : List Product)
    (c s : Option String) : List Product :=
  (repo.filter (matchesQuery rmatch c s)).mergeSort byCreatedAtDesc

/-- The regex metacharacters of the PCRE dialect MongoDB uses. -/
def regexMetaChars : List Char :=
  "\\^$.|?*+()[]\x7b\x7d".data

/-- Holds of a search string containing no regex metacharacter: such a
pattern is a valid regex consisting of literal characters only. -/
def noMeta (t : String) : Bool :=
  t.data.all (fun c => !(regexMetaChars.contains c))

/-- One step of pattern matching at a fixed position: a `.` pattern
character matches any character, any other pattern character matches
itself case-insensitively (the `i` option). -/
def matchHere : List Char → List Char → Bool
  | [], _ => true
  | _ :: _, [] => false
  | pc :: ps, c :: cs => (pc == '.' || pc.toLower == c.toLower) && matchHere ps cs

/-- Unanchored matching: try `matchHere` at every position of the
subject, as a regex engine does for a pattern without anchors. -/
def matchAnywhere (ps : List Char) : List Char → Bool
  | [] => matchHere ps []
  | c :: cs => matchHere ps (c :: cs) || matchAnywhere ps cs

/-- Concrete model of the engine's case-insensitive matching on the
fragment of patterns built from literal characters and the `.` wildcard —
the fragment on which every mainstream regex dialect (including the PCRE
engine MongoDB uses) agrees. -/
def dotLiteralMatch (pat subject : String) : Bool :=
  matchAnywhere pat.data subject.data

/-! ### Helper lemmas -/

theorem multerCheck_ok (f : FilePayload)
    (hm : jsStartsWith f.mimetype "image/" = true)
    (hs : f.sizeBytes <= fileSizeLimit) : multerCheck f = .ok () := by
  simp [multerCheck, hm, Nat.not_lt.mpr hs]

theorem applyFields_image (p : Product) (req : Fields) :
    (applyFields p req).image = p.image := rfl

theorem applyFields_id (p : Product) (req : Fields) :
    (applyFields p req).id = p.id := rfl

theorem schemaValid_of (p : Product) (hn : p.name ≠ "")
    (hc : p.category ∈ categories) : schemaValid p = true := by
  have hc' : p.category ≠ "" := by
    intro h
    rw [h] at hc
    revert hc
    decide
  simp [schemaValid, hn, hc', hc]

theorem saveExisting_ok (repo : List Product) (p : Product)
    (hv : schemaValid p = true) :
    saveExisting true repo p =
      .ok (repo.map (fun q => if q.id == p.id then p else q)) := by
  simp [saveExisting, hv]

theorem saveNew_ok (repo : List Product) (p : Product)
    (hv : schemaValid p = true) :
    saveNew true repo p = .ok (p :: repo) := by
  simp [saveNew, hv]

theorem saveNew_db_fail (repo : List Product) (p : Product)
    (hv : schemaValid p = true) :
    saveNew false repo p = .error .db := by
  simp [saveNew, hv]

theorem saveNew_invalid (dbOk : Bool) (repo : List Product) (p : Product)
    (hv : schemaValid p = false) :
    saveNew dbOk repo p = .error .validation := by
  simp [saveNew, hv]

theorem saveExisting_ok_valid {db : Bool} {repo : List Product} {p : Product}
    {r : List Product} (h : saveExisting db repo p = .ok r) :
    schemaValid p = true := by
  unfold saveExisting at h
  split at h
  · simp at h
  · next hns =>
    split at h
    · simp at h
    · simpa using hns

theorem findById_filter_ne (repo : List Product) (id : Nat) :
    findById (repo.filter (fun q => q.id != id)) id = none := by
  rw [findById, List.find?_eq_none]
  intro p hp
  rw [List.mem_filter] at hp
  simpa using hp.2

/-! ### Claim theorems -/

/-- C1, counterexample.  The claim quantifies over both backends, but the
remote backend's update route (`src/unnamed/part_002`, `router.put`)
replaces `product.image` with the freshly uploaded URL without ever
deleting the old remote asset: after a successful update-with-new-payload
the old asset reference `"old.jpg"` is still present in (retrievable from)
the remote store. -/
theorem c1_counterexample :
    remoteUpdate ["old.jpg"]
        [{ id := 1, name := "A", category := "Insecticides", description := none,
           image := some "old.jpg", createdAt := 0, updatedAt := 0 }] 1
        ⟨none, none, none⟩ (some ⟨10, "image/png"⟩) "new.jpg" true 5 true
      = (.ok { id := 1, name := "A", category := "Insecticides", description := none,
               image := some "new.jpg", createdAt := 0, updatedAt := 5 },
         ["new.jpg", "old.jpg"],
         [{ id := 1, name := "A", category := "Insecticides", description := none,
            image := some "new.jpg", createdAt := 0, updatedAt := 5 }]) ∧
    "old.jpg" ∈ ["new.jpg", "old.jpg"] := by
  exact ⟨rfl, by decide⟩

/-- C2, counterexample.  The claim quantifies over both backends, but the
remote backend's create route has no compensation in its `catch` block:
when the ImageKit upload succeeds and the database write then fails, the
route reports the persistence failure yet the just-stored asset
`"img1.jpg"` remains in the remote store. -/
theorem c2_counterexample :
    remoteCreate [] [] ⟨some "A", some "Insecticides", none⟩
        (some ⟨10, "image/png"⟩) "img1.jpg" true 1 0 false
      = (.error .PersistenceError, ["img1.jpg"], []) ∧
    "img1.jpg" ∈ ["img1.jpg"] := by
  exact ⟨rfl, by decide⟩

/-- C3, counterexample.  The claim quantifies over both backends, but the
remote backend's delete route (`src/unnamed/part_002`, `router.delete`)
only calls `findByIdAndDelete` and never deletes the referenced remote
asset: after a successful delete the product's asset `"img1.jpg"` is still
present in (retrievable from) the remote store. -/
theorem c3_counterexample :
    remoteDelete ["img1.jpg"]
        [{ id := 1, name := "A", category := "Insecticides", description := none,
           image := some "img1.jpg", createdAt := 0, updatedAt := 0 }] 1 true
      = (.ok (), ["img1.jpg"], []) ∧
    "img1.jpg" ∈ ["img1.jpg"] := by
  exact ⟨rfl, by decide⟩

/-- C7, counterexample.  The routes only check truthiness of `category` and
then store `category.trim()`; mongoose's enum validator sees the trimmed
value.  The raw request value `" Insecticides "` is non-empty and lies
outside the closed set, yet the create succeeds and persists a record —
so the claim, read on the request's category value, fails. -/
theorem c7_counterexample :
    (" Insecticides " ∉ categories ∧ " Insecticides " ≠ "") ∧
    localCreate [] [] ⟨some "A", some " Insecticides ", none⟩ none "g" 1 0 true true
      = (.ok { id := 1, name := "A", category := "Insecticides", description := none,
               image := none, createdAt := 0, updatedAt := 0 },
         [], [{ id := 1, name := "A", category := "Insecticides", description := none,
                image := none, createdAt := 0, updatedAt := 0 }]) := by
  exact ⟨by decide, rfl⟩

/-- C5: both backends' bulk delete-all refuse with `ForbiddenInEnvironment`
in a production-flagged environment and leave the asset store and every
product record unchanged; in a non-production environment (with the
database write succeeding) they clear all records and report the number of
deleted records. -/
theorem c5_deleteAll_production_guard (fs store : List String)
    (repo : List Product) (dbOk : Bool) :
    localDeleteAll fs repo true dbOk = (.error .ForbiddenInEnvironment, fs, repo) ∧
    remoteDeleteAll store repo true dbOk = (.error .ForbiddenInEnvironment, store, repo) ∧
    localDeleteAll fs repo false true
      = (.ok (repo.length, (localSweep fs repo).2), (localSweep fs repo).1, []) ∧
    remoteDeleteAll store repo false true = (.ok repo.length, store, []) := by
  refine ⟨rfl, rfl, rfl, rfl⟩

theorem catMatch_iff (c : Option String) (p : Product) :
    catMatch c p = true ↔ ∀ cv, c = some cv → cv ≠ "" → p.category = cv := by
  cases c with
  | none => simp [catMatch]
  | some cv =>
    by_cases h : cv = ""
    · subst h
      simp [catMatch]
    · simp [catMatch, h]

theorem searchMatch_iff (rmatch : String → String → Bool) (t : Option String)
    (p : Product) :
    searchMatch rmatch t p = true ↔
      ∀ sv, t = some sv → sv ≠ "" → rmatch sv p.name = true := by
  cases t with
  | none => simp [searchMatch]
  | some sv =>
    by_cases h : sv = ""
    · subst h
      simp [searchMatch]
    · simp [searchMatch, h]

theorem matchHere_eq_prefix (ps : List Char) (h : ∀ pc ∈ ps, pc ≠ '.') :
    ∀ cs : List Char,
      matchHere ps cs = decide (ps.map Char.toLower <+: cs.map Char.toLower) := by
  induction ps with
  | nil =>
    intro cs
    simp [matchHere]
  | cons pc ps ih =>
    intro cs
    have hpc : pc ≠ '.' := h pc (by simp)
    have hrest : ∀ x ∈ ps, x ≠ '.' := fun x hx => h x (by simp [hx])
    cases cs with
    | nil => simp [matchHere]
    | cons c cs =>
      by_cases hc : pc.toLower = c.toLower
      · simp [matchHere, hpc, hc, List.cons_prefix_cons, ih hrest cs]
      · simp [matchHere, hpc, hc, List.cons_prefix_cons]

theorem matchAnywhere_eq_infix (ps : List Char) (h : ∀ pc ∈ ps, pc ≠ '.') :
    ∀ cs : List Char,
      matchAnywhere ps cs = decide (ps.map Char.toLower <:+: cs.map Char.toLower) := by
  intro cs
  induction cs with
  | nil =>
    rw [matchAnywhere, matchHere_eq_prefix ps h]
    simp [List.prefix_nil, List.infix_nil]
  | cons c cs ih =>
    rw [matchAnywhere, matchHere_eq_prefix ps h, ih]
    simp [List.infix_cons_iff]

/-- On a metacharacter-free pattern, which a regex engine treats as a
sequence of literal characters, the case-insensitive match test of
`dotLiteralMatch` is exactly case-insensitive substring containment. -/
theorem dotLiteralMatch_noMeta (s subject : String) (h : noMeta s = true) :
    dotLiteralMatch s subject = ciContains s subject := by
  have hdot : ∀ pc ∈ s.data, pc ≠ '.' := by
    intro pc hpc heq
    rw [noMeta, List.all_eq_true] at h
    have hm := h pc hpc
    subst heq
    have hc : regexMetaChars.contains '.' = true := by decide
    rw [hc] at hm
    simp at hm
  rw [dotLiteralMatch, matchAnywhere_eq_infix s.data hdot subject.data]
  rfl

/-- C6, counterexample.  The source hands the raw search string to
MongoDB as a `$regex` pattern, so the search is regular-expression
matching, not literal substring containment: in every regex dialect
(including the PCRE engine MongoDB uses, modelled here on this fragment
by `dotLiteralMatch`) the pattern `"."` matches any character, so the
list query with search `"."` returns a product named `"AB"` although
`"."` is not a case-insensitive substring of `"AB"`. -/
theorem c6_counterexample :
    (⟨1, "AB", "Insecticides", none, none, 0, 0⟩ : Product) ∈
      listProducts dotLiteralMatch
        [⟨1, "AB", "Insecticides", none, none, 0, 0⟩] none (some ".") ∧
    ciContains "." "AB" = false := by
  constructor
  · rw [listProducts, List.mem_mergeSort, List.mem_filter]
    exact ⟨by decide, by decide⟩
  · decide

/-- C6 (amended): list queries combine an optional category filter with an
optional name search, the search string being interpreted by the store as
a case-insensitive regular expression over `name`; for search strings
free of regex metacharacters — on which every engine matches a pattern as
its literal characters, the law `hlit` — a product appears in the result
exactly when it is stored, matches the category filter, and its name
contains the search string case-insensitively as a substring; and the
returned sequence is ordered non-increasing by `createdAt`. -/
theorem c6_regex_list_query (rmatch : String → String → Bool)
    (repo : List Product) (c t : Option String)
    (hlit : ∀ s subject, noMeta s = true → rmatch s subject = ciContains s subject)
    (ht : ∀ sv, t = some sv → sv = "" ∨ noMeta sv = true) :
    (listProducts rmatch repo c t).Pairwise
      (fun a b => b.createdAt ≤ a.createdAt) ∧
    ∀ p, p ∈ listProducts rmatch repo c t ↔ p ∈ repo ∧
      (∀ cv, c = some cv → cv ≠ "" → p.category = cv) ∧
      (∀ sv, t = some sv → sv ≠ "" →
        (jsToLower sv).data <:+: (jsToLower p.name).data) := by
  constructor
  · have htrans : ∀ a b c : Product,
        byCreatedAtDesc a b → byCreatedAtDesc b c → byCreatedAtDesc a c := by
      intro a b c hab hbc
      simp only [byCreatedAtDesc, decide_eq_true_eq] at *
      omega
    have htotal : ∀ a b : Product, byCreatedAtDesc a b || byCreatedAtDesc b a := by
      intro a b
      simp only [byCreatedAtDesc, Bool.or_eq_true, decide_eq_true_eq]
      omega
    have h := @List.sorted_mergeSort Product byCreatedAtDesc htrans htotal
      (repo.filter (matchesQuery rmatch c t))
    exact h.imp (fun hab => by simpa [byCreatedAtDesc] using hab)
  · intro p
    rw [listProducts, List.mem_mergeSort, List.mem_filter, matchesQuery,
      Bool.and_eq_true, catMatch_iff, searchMatch_iff]
    constructor
    · rintro ⟨hp, hcat, hsearch⟩
      refine ⟨hp, hcat, ?_⟩
      intro sv hsv hne
      have hnm : noMeta sv = true := by
        rcases ht sv hsv with h0 | h0
        · exact absurd h0 hne
        · exact h0
      have hx := hsearch sv hsv hne
      rw [hlit sv p.name hnm] at hx
      simpa [ciContains] using hx
    · rintro ⟨hp, hcat, hsub⟩
      refine ⟨hp, hcat, ?_⟩
      intro sv hsv hne
      have hnm : noMeta sv = true := by
        rcases ht sv hsv with h0 | h0
        · exact absurd h0 hne
        · exact h0
      rw [hlit sv p.name hnm]
      simpa [ciContains] using hsub sv hsv hne

/-- Witness instantiating `c6_regex_list_query` with the concrete engine
model `dotLiteralMatch` at a concrete query. -/
theorem c6_witness :
    (listProducts dotLiteralMatch
        [⟨1, "AB", "Insecticides", none, none, 0, 0⟩] none
        (some "ab")).Pairwise (fun a b => b.createdAt ≤ a.createdAt) :=
  (c6_regex_list_query dotLiteralMatch
    [⟨1, "AB", "Insecticides", none, none, 0, 0⟩] none (some "ab")
    (fun s subject h => dotLiteralMatch_noMeta s subject h)
    (fun sv hsv => by cases hsv; exact Or.inr (by decide))).1

/-- C1 (amended): the stated property holds for the local-disk backend
only.  There, multer durably stores the new asset before the handler runs;
the handler then deletes the old asset reference and replaces the field,
so after a successful update (with a fresh generated name and the
best-effort unlink of the old file succeeding) the old asset reference is
no longer retrievable from the uploads store while the new one is.  The
remote backend stores the new asset first but never deletes the old one,
which stays retrievable (see `c1_counterexample`). -/
theorem c1_local_replaces_asset (fs : List String) (repo : List Product)
    (id : Nat) (req : Fields) (f : FilePayload) (gen : String) (now : Nat)
    (p0 : Product) (old : String)
    (hmime : jsStartsWith f.mimetype "image/" = true)
    (hsize : f.sizeBytes ≤ fileSizeLimit)
    (hfind : findById repo id = some p0)
    (himg : p0.image = some old)
    (hmem : old ∈ fs)
    (hfresh : uploadPath gen ≠ old)
    (hvalid : schemaValid { applyFields p0 req with
        image := some (uploadPath gen), updatedAt := now } = true) :
    localUpdate fs repo id req (some f) gen now true true true
      = (.ok { applyFields p0 req with image := some (uploadPath gen), updatedAt := now },
         uploadPath gen :: fsRemove fs old,
         repo.map (fun q => if q.id == p0.id then
           { applyFields p0 req with image := some (uploadPath gen), updatedAt := now }
           else q)) ∧
    old ∉ uploadPath gen :: fsRemove fs old ∧
    uploadPath gen ∈ uploadPath gen :: fsRemove fs old := by
  refine ⟨?_, ?_, List.mem_cons_self _ _⟩
  · have h1 : (applyFields p0 req).image = some old := by
      rw [applyFields_image, himg]
    have h2 : (uploadPath gen :: fs).contains old = true := by simp [hmem]
    have h3 : fsRemove (uploadPath gen :: fs) old = uploadPath gen :: fsRemove fs old := by
      simp [fsRemove, List.filter_cons, hfresh]
    have hs := saveExisting_ok repo
      { applyFields p0 req with image := some (uploadPath gen), updatedAt := now } hvalid
    simp only [localUpdate, multerCheck_ok f hmime hsize, hfind, h1, h2, Bool.and_true,
      if_true, h3, applyFields_id] at hs ⊢
    rw [hs]
  · have h4 : old ≠ uploadPath gen := Ne.symm hfresh
    simp [fsRemove, h4]

/-- C2 (amended): the stated property holds for the local-disk backend
only.  There, when the stored payload's database write fails the route
reports `PersistenceError` and best-effort unlinks the stored asset: when
the compensating unlink succeeds the asset is gone, and its own failure
leaves the reported error kind unchanged.  The remote backend also reports
`PersistenceError` but attempts no compensation, and the just-stored asset
remains (see `c2_counterexample`). -/
theorem c2_local_create_compensation (fs : List String) (repo : List Product)
    (req : Fields) (f : FilePayload) (gen : String) (newId : Nat) (now : Nat)
    (compOk : Bool)
    (hmime : jsStartsWith f.mimetype "image/" = true)
    (hsize : f.sizeBytes ≤ fileSizeLimit)
    (hname : jsTruthy req.name = true)
    (hcat : jsTruthy req.category = true)
    (hvalid : schemaValid
      { id := newId, name := jsTrim (req.name.getD ""),
        category := jsTrim (req.category.getD ""),
        description := descCreateLocal req.description,
        image := some (uploadPath gen), createdAt := now, updatedAt := now } = true) :
    localCreate fs repo req (some f) gen newId now false compOk
      = (.error .PersistenceError,
         if compOk then fsRemove (uploadPath gen :: fs) (uploadPath gen)
         else uploadPath gen :: fs,
         repo) ∧
    uploadPath gen ∉ fsRemove (uploadPath gen :: fs) (uploadPath gen) := by
  constructor
  · simp only [localCreate, multerCheck_ok f hmime hsize, hname, hcat, Bool.and_self,
      Bool.not_true, Bool.false_eq_true, if_false, saveNew_db_fail repo _ hvalid]
  · simp [fsRemove]

/-- C3 (amended): for the local-disk backend the asset is deleted first and
the record second, a failed unlink never blocks record removal, and after
a successful delete the record is gone (a second delete of the same id
returns `NotFound`) and — when the unlink succeeded — the asset is no
longer retrievable.  The remote backend removes only the record (its asset
stays retrievable, see `c3_counterexample`); the record-removal and
second-delete-`NotFound` outcomes hold for both backends. -/
theorem c3_delete_record_removal (fs store : List String) (repo : List Product)
    (id : Nat) (p0 : Product) (old : String)
    (hfind : findById repo id = some p0)
    (himg : p0.image = some old)
    (hmem : old ∈ fs) :
    localDelete fs repo id true true
      = (.ok (), fsRemove fs old, repo.filter (fun q => q.id != id)) ∧
    localDelete fs repo id false true
      = (.ok (), fs, repo.filter (fun q => q.id != id)) ∧
    old ∉ fsRemove fs old ∧
    remoteDelete store repo id true
      = (.ok (), store, repo.filter (fun q => q.id != id)) ∧
    (∀ (fs2 store2 : List String) (uo db : Bool),
      (localDelete fs2 (repo.filter (fun q => q.id != id)) id uo db).1
        = .error .NotFound ∧
      (remoteDelete store2 (repo.filter (fun q => q.id != id)) id db).1
        = .error .NotFound) := by
  have h2 : fs.contains old = true := by simp [hmem]
  refine ⟨?_, ?_, ?_, ?_, ?_⟩
  · simp only [localDelete, hfind, himg, h2, Bool.and_true, if_true]
  · simp only [localDelete, hfind, himg, h2, Bool.and_false, Bool.false_eq_true, if_false,
      if_true]
  · simp [fsRemove]
  · simp only [remoteDelete, hfind, if_true]
  · intro fs2 store2 uo db
    constructor
    · simp only [localDelete, findById_filter_ne]
    · simp only [remoteDelete, findById_filter_ne]

theorem schemaValid_false_of_cat (p : Product) (hc : p.category ∉ categories) :
    schemaValid p = false := by
  simp [schemaValid, hc]

/-- C4: a create whose `name` or `category` is empty or missing fails with
`ValidationError` and attempts no repository write, and no asset
attributable to the request remains in the asset store: the local backend
(where multer already stored the received payload) unlinks it before
responding, and the remote backend never uploads it.  The hypothesis
`hfile` restricts to payloads that were actually received, i.e. accepted
by the upload middleware. -/
theorem c4_create_validation_no_asset (fs store : List String)
    (repo : List Product) (req : Fields) (file : Option FilePayload)
    (gen url : String) (uploadOk : Bool) (newId now : Nat) (dbOk compOk : Bool)
    (hinv : (jsTruthy req.name && jsTruthy req.category) = false)
    (hfile : ∀ f, file = some f → multerCheck f = .ok ()) :
    (file = none →
      localCreate fs repo req file gen newId now dbOk compOk
        = (.error .ValidationError, fs, repo)) ∧
    (∀ f, file = some f →
      localCreate fs repo req file gen newId now dbOk compOk
        = (.error .ValidationError,
           fsRemove (uploadPath gen :: fs) (uploadPath gen), repo) ∧
      uploadPath gen ∉ fsRemove (uploadPath gen :: fs) (uploadPath gen)) ∧
    remoteCreate store repo req file url uploadOk newId now dbOk
      = (.error .ValidationError, store, repo) := by
  refine ⟨?_, ?_, ?_⟩
  · rintro rfl
    simp [localCreate, hinv]
  · rintro f rfl
    refine ⟨?_, ?_⟩
    · simp only [localCreate, hfile f rfl, hinv, Bool.not_false, if_true]
    · simp [fsRemove]
  · cases file with
    | none => simp [remoteCreate, hinv]
    | some f => simp only [remoteCreate, hfile f rfl, hinv, Bool.not_false, if_true]

/-- C7 (amended): the routes check only truthiness of the raw `category`
and persist its trimmed value, which mongoose's enum validator then
checks; so a create whose *trimmed* category value lies outside the closed
set fails with `ValidationError` (mongoose validation, before any write)
and persists no record, on both backends.  On the raw request value the
claim fails, because a value that trims into the set succeeds (see
`c7_counterexample`). -/
theorem c7_trimmed_category_enum (fs store : List String) (repo : List Product)
    (req : Fields) (file : Option FilePayload) (gen url : String)
    (newId now : Nat) (dbOk compOk : Bool)
    (hname : jsTruthy req.name = true)
    (hcat : jsTruthy req.category = true)
    (hout : jsTrim (req.category.getD "") ∉ categories)
    (hfile : ∀ f, file = some f → multerCheck f = .ok ()) :
    (localCreate fs repo req file gen newId now dbOk compOk).1
      = .error .ValidationError ∧
    (localCreate fs repo req file gen newId now dbOk compOk).2.2 = repo ∧
    (remoteCreate store repo req file url true newId now dbOk).1
      = .error .ValidationError ∧
    (remoteCreate store repo req file url true newId now dbOk).2.2 = repo := by
  cases file with
  | none =>
    simp only [localCreate, remoteCreate, hname, hcat, Bool.and_self, Bool.not_true,
      Bool.false_eq_true, if_false]
    rw [saveNew_invalid dbOk repo _ (schemaValid_false_of_cat _ hout),
      saveNew_invalid dbOk repo _ (schemaValid_false_of_cat _ hout)]
    exact ⟨rfl, rfl, rfl, rfl⟩
  | some f =>
    simp only [localCreate, remoteCreate, hfile f rfl, hname, hcat, Bool.and_self,
      Bool.not_true, Bool.false_eq_true, if_false, Bool.not_false, if_true]
    rw [saveNew_invalid dbOk repo _ (schemaValid_false_of_cat _ hout),
      saveNew_invalid dbOk repo _ (schemaValid_false_of_cat _ hout)]
    exact ⟨rfl, rfl, rfl, rfl⟩

/-- C8: every route that accepts a binary payload — create and update, on
both backends — rejects a payload whose mimetype does not start with
`image/` with `UnsupportedMediaType`, and a payload over 5 MiB with
`PayloadTooLarge` (the mimetype filter runs first), and in either case the
asset store and the repository are left unchanged: no asset is
persisted. -/
theorem c8_store_rejects_bad_payload (f : FilePayload) (fs store : List String)
    (repo : List Product) (req : Fields) (id : Nat) (gen url : String)
    (uploadOk : Bool) (newId now : Nat) (dbOk compOk oldOk : Bool)
    (h : jsStartsWith f.mimetype "image/" = false ∨
         (jsStartsWith f.mimetype "image/" = true ∧ fileSizeLimit < f.sizeBytes)) :
    ∃ e, multerCheck f = .error e ∧
      (jsStartsWith f.mimetype "image/" = false → e = .UnsupportedMediaType) ∧
      (jsStartsWith f.mimetype "image/" = true → e = .PayloadTooLarge) ∧
      localCreate fs repo req (some f) gen newId now dbOk compOk
        = (.error e, fs, repo) ∧
      remoteCreate store repo req (some f) url uploadOk newId now dbOk
        = (.error e, store, repo) ∧
      localUpdate fs repo id req (some f) gen now oldOk dbOk compOk
        = (.error e, fs, repo) ∧
      remoteUpdate store repo id req (some f) url uploadOk now dbOk
        = (.error e, store, repo) := by
  rcases h with hm | ⟨hm, hs⟩
  · have hmc : multerCheck f = .error .UnsupportedMediaType := by
      simp [multerCheck, hm]
    refine ⟨.UnsupportedMediaType, hmc, fun _ => rfl,
      fun hc => by rw [hm] at hc; exact absurd hc (by decide), ?_, ?_, ?_, ?_⟩
    · simp only [localCreate, hmc]
    · simp only [remoteCreate, hmc]
    · simp only [localUpdate, hmc]
    · simp only [remoteUpdate, hmc]
  · have hmc : multerCheck f = .error .PayloadTooLarge := by
      simp [multerCheck, hm, hs]
    refine ⟨.PayloadTooLarge, hmc,
      fun hc => by rw [hm] at hc; exact absurd hc (by decide), fun _ => rfl,
      ?_, ?_, ?_, ?_⟩
    · simp only [localCreate, hmc]
    · simp only [remoteCreate, hmc]
    · simp only [localUpdate, hmc]
    · simp only [remoteUpdate, hmc]

/-- C9: on both backends, an update of an existing product changes only
the fields present in the request: absent `name`/`category` keep the old
values, absent `description` is kept while `description` explicitly set to
the empty string clears it (stored as the empty text), and an update
without a binary payload leaves the `image` field exactly as it was. -/
theorem c9_partial_update_semantics (fs store : List String)
    (repo : List Product) (id : Nat) (req : Fields) (gen url : String)
    (now : Nat) (p0 : Product)
    (hfind : findById repo id = some p0)
    (hvalid : schemaValid (applyFields p0 req) = true) :
    localUpdate fs repo id req none gen now true true true
      = (.ok { applyFields p0 req with updatedAt := now }, fs,
         repo.map (fun q => if q.id == p0.id then
           { applyFields p0 req with updatedAt := now } else q)) ∧
    remoteUpdate store repo id req none url true now true
      = (.ok { applyFields p0 req with updatedAt := now }, store,
         repo.map (fun q => if q.id == p0.id then
           { applyFields p0 req with updatedAt := now } else q)) ∧
    ({ applyFields p0 req with updatedAt := now } : Product).image = p0.image ∧
    (req.name = none →
      ({ applyFields p0 req with updatedAt := now } : Product).name = p0.name) ∧
    (req.category = none →
      ({ applyFields p0 req with updatedAt := now } : Product).category
        = p0.category) ∧
    (req.description = none →
      ({ applyFields p0 req with updatedAt := now } : Product).description
        = p0.description) ∧
    (req.description = some "" →
      ({ applyFields p0 req with updatedAt := now } : Product).description
        = some "") := by
  have hs := saveExisting_ok repo { applyFields p0 req with updatedAt := now } hvalid
  refine ⟨?_, ?_, applyFields_image p0 req, ?_, ?_, ?_, ?_⟩
  · simp only [localUpdate, hfind, applyFields_id] at hs ⊢
    rw [hs]
  · simp only [remoteUpdate, hfind, applyFields_id] at hs ⊢
    rw [hs]
  · intro h
    simp [applyFields, h, jsTruthy]
  · intro h
    simp [applyFields, h, jsTruthy]
  · intro h
    simp [applyFields, h]
  · intro h
    simp [applyFields, h, jsTrim]

theorem localUpdate_ok_valid (fs : List String) (repo : List Product)
    (id : Nat) (req : Fields) (file : Option FilePayload) (gen : String)
    (now : Nat) (uo db co : Bool) (q : Product) (fs2 : List String)
    (rp2 : List Product)
    (h : localUpdate fs repo id req file gen now uo db co = (.ok q, fs2, rp2)) :
    schemaValid q = true := by
  cases file with
  | none =>
    cases hf : findById repo id with
    | none => simp [localUpdate, hf] at h
    | some p0 =>
      simp only [localUpdate, hf] at h
      repeat' split at h
      all_goals first
        | (simp only [Prod.mk.injEq, Except.ok.injEq] at h
           obtain ⟨rfl, -, -⟩ := h
           exact saveExisting_ok_valid (by assumption))
        | simp at h
  | some f =>
    cases hm : multerCheck f with
    | error e => simp [localUpdate, hm] at h
    | ok u =>
      cases hf : findById repo id with
      | none => simp [localUpdate, hm, hf] at h
      | some p0 =>
        simp only [localUpdate, hm, hf] at h
        repeat' split at h
        all_goals first
          | (simp only [Prod.mk.injEq, Except.ok.injEq] at h
             obtain ⟨rfl, -, -⟩ := h
             exact saveExisting_ok_valid (by assumption))
          | simp at h

theorem remoteUpdate_ok_valid (store : List String) (repo : List Product)
    (id : Nat) (req : Fields) (file : Option FilePayload) (url : String)
    (uok : Bool) (now : Nat) (db : Bool) (q : Product) (st2 : List String)
    (rp2 : List Product)
    (h : remoteUpdate store repo id req file url uok now db
      = (.ok q, st2, rp2)) :
    schemaValid q = true := by
  cases file with
  | none =>
    cases hf : findById repo id with
    | none => simp [remoteUpdate, hf] at h
    | some p0 =>
      simp only [remoteUpdate, hf] at h
      repeat' split at h
      all_goals first
        | (simp only [Prod.mk.injEq, Except.ok.injEq] at h
           obtain ⟨rfl, -, -⟩ := h
           exact saveExisting_ok_valid (by assumption))
        | simp at h
  | some f =>
    cases hm : multerCheck f with
    | error e => simp [remoteUpdate, hm] at h
    | ok u =>
      cases hf : findById repo id with
      | none => simp [remoteUpdate, hm, hf] at h
      | some p0 =>
        simp only [remoteUpdate, hm, hf] at h
        repeat' split at h
        all_goals first
          | (simp only [Prod.mk.injEq, Except.ok.injEq] at h
             obtain ⟨rfl, -, -⟩ := h
             exact saveExisting_ok_valid (by assumption))
          | simp at h

/-- C10: an update that supplies `name` or `category` as the empty string
leaves that field silently unchanged (the route's truthiness guard skips
it; no validation error is raised), and — because mongoose validates the
saved document — no successful update, on either backend, ever produces a
record with an empty `name` or `category`. -/
theorem c10_empty_fields_ignored (fs store : List String)
    (repo : List Product) (id : Nat) (gen url : String) (now : Nat)
    (p0 : Product)
    (hfind : findById repo id = some p0)
    (hvn : p0.name ≠ "") (hvc : p0.category ∈ categories) :
    (localUpdate fs repo id ⟨some "", some "", none⟩ none gen now true true true).1
      = .ok { p0 with updatedAt := now } ∧
    (remoteUpdate store repo id ⟨some "", some "", none⟩ none url true now true).1
      = .ok { p0 with updatedAt := now } ∧
    (∀ (req : Fields) (file : Option FilePayload) (gen2 : String)
       (now2 : Nat) (uo db co : Bool) (q : Product) (fs2 : List String)
       (rp2 : List Product),
      localUpdate fs repo id req file gen2 now2 uo db co = (.ok q, fs2, rp2) →
      q.name ≠ "" ∧ q.category ≠ "") ∧
    (∀ (req : Fields) (file : Option FilePayload) (url2 : String)
       (uok : Bool) (now2 : Nat) (db : Bool) (q : Product)
       (st2 : List String) (rp2 : List Product),
      remoteUpdate store repo id req file url2 uok now2 db = (.ok q, st2, rp2) →
      q.name ≠ "" ∧ q.category ≠ "") := by
  have ha : applyFields p0 ⟨some "", some "", none⟩ = p0 := rfl
  have hs := saveExisting_ok repo { p0 with updatedAt := now }
    (schemaValid_of _ hvn hvc)
  refine ⟨?_, ?_, ?_, ?_⟩
  · simp only [localUpdate, hfind, ha] at hs ⊢
    rw [hs]
  · simp only [remoteUpdate, hfind, ha] at hs ⊢
    rw [hs]
  · intro req file gen2 now2 uo db co q fs2 rp2 h
    have hv := localUpdate_ok_valid fs repo id req file gen2 now2 uo db co q fs2 rp2 h
    simp only [schemaValid, Bool.and_eq_true, bne_iff_ne] at hv
    exact ⟨hv.1.1, hv.1.2⟩
  · intro req file url2 uok now2 db q st2 rp2 h
    have hv := remoteUpdate_ok_valid store repo id req file url2 uok now2 db q st2 rp2 h
    simp only [schemaValid, Bool.and_eq_true, bne_iff_ne] at hv
    exact ⟨hv.1.1, hv.1.2⟩

/-- Witness instantiating `c1_local_replaces_asset` at a concrete update. -/
theorem c1_witness :
    "/uploads/old.png" ∉
      uploadPath "new.png" :: fsRemove ["/uploads/old.png"] "/uploads/old.png" :=
  (c1_local_replaces_asset ["/uploads/old.png"]
    [⟨1, "A", "Insecticides", none, some "/uploads/old.png", 0, 0⟩] 1
    ⟨none, none, none⟩ ⟨10, "image/png"⟩ "new.png" 5
    ⟨1, "A", "Insecticides", none, some "/uploads/old.png", 0, 0⟩ "/uploads/old.png"
    (by decide) (by decide) (by decide) (by decide) (by decide) (by decide)
    (by decide)).2.1

/-- Witness instantiating `c2_local_create_compensation` concretely. -/
theorem c2_witness :
    uploadPath "i.png" ∉ fsRemove (uploadPath "i.png" :: []) (uploadPath "i.png") :=
  (c2_local_create_compensation [] [] ⟨some "A", some "Insecticides", none⟩
    ⟨10, "image/png"⟩ "i.png" 1 0 true
    (by decide) (by decide) (by decide) (by decide) (by decide)).2

/-- Witness instantiating `c3_delete_record_removal` concretely. -/
theorem c3_witness :
    "/uploads/a.png" ∉ fsRemove ["/uploads/a.png"] "/uploads/a.png" :=
  (c3_delete_record_removal ["/uploads/a.png"] []
    [⟨1, "A", "Insecticides", none, some "/uploads/a.png", 0, 0⟩] 1
    ⟨1, "A", "Insecticides", none, some "/uploads/a.png", 0, 0⟩ "/uploads/a.png"
    (by decide) (by decide) (by decide)).2.2.1

/-- Witness instantiating `c4_create_validation_no_asset` concretely. -/
theorem c4_witness :
    localCreate [] [] ⟨none, some "Insecticides", none⟩ none "g" 1 0 true true
      = (.error .ValidationError, [], []) :=
  (c4_create_validation_no_asset [] [] [] ⟨none, some "Insecticides", none⟩ none
    "g" "u" true 1 0 true true (by decide) (fun f hf => by cases hf)).1 rfl

/-- Witness instantiating `c7_trimmed_category_enum` concretely. -/
theorem c7_witness :
    (localCreate [] [] ⟨some "A", some "Foo", none⟩ none "g" 1 0 true true).1
      = .error .ValidationError :=
  (c7_trimmed_category_enum [] [] [] ⟨some "A", some "Foo", none⟩ none "g" "u"
    1 0 true true (by decide) (by decide) (by decide) (fun f hf => by cases hf)).1

/-- Witness instantiating `c8_store_rejects_bad_payload` concretely. -/
theorem c8_witness :
    localCreate [] [] ⟨some "A", some "Insecticides", none⟩
        (some ⟨10, "text/plain"⟩) "g" 1 0 true true
      = (.error .UnsupportedMediaType, [], []) := by
  obtain ⟨e, -, hmime, -, hloc, -, -, -⟩ :=
    c8_store_rejects_bad_payload ⟨10, "text/plain"⟩ [] [] []
      ⟨some "A", some "Insecticides", none⟩ 1 "g" "u" true 1 0 true true true
      (Or.inl (by decide))
  rw [hmime (by decide)] at hloc
  exact hloc

/-- Witness instantiating `c9_partial_update_semantics` concretely. -/
theorem c9_witness :
    ({ applyFields ⟨1, "A", "Insecticides", some "d", none, 0, 0⟩
        ⟨none, none, some ""⟩ with updatedAt := 5 } : Product).description
      = some "" :=
  (c9_partial_update_semantics [] [] [⟨1, "A", "Insecticides", some "d", none, 0, 0⟩]
    1 ⟨none, none, some ""⟩ "g" "u" 5 ⟨1, "A", "Insecticides", some "d", none, 0, 0⟩
    (by decide) (by decide)).2.2.2.2.2.2 rfl

/-- Witness instantiating `c10_empty_fields_ignored` concretely. -/
theorem c10_witness :
    (localUpdate [] [⟨1, "A", "Insecticides", none, none, 0, 0⟩] 1
        ⟨some "", some "", none⟩ none "g" 5 true true true).1
      = .ok { (⟨1, "A", "Insecticides", none, none, 0, 0⟩ : Product) with
              updatedAt := 5 } :=
  (c10_empty_fields_ignored [] [] [⟨1, "A", "Insecticides", none, none, 0, 0⟩] 1
    "g" "u" 5 ⟨1, "A", "Insecticides", none, none, 0, 0⟩
    (by decide) (by decide) (by decide)).1

end FieldLife
